import Mathlib

/-!
Verification development for the QGIS settings registry core
(`src/core/settings/qgssettingsentry.h` and
`src/core/settings/qgssettingstreenode.h`).

Keys of the backing store are modelled as lists of path segments
(the C++ code joins segments with a fixed `/` separator); the untyped
`QVariant` value representation is a type parameter `V`.
-/

/-- Modelled from the spec: the settings exception thrown on structural
errors (duplicate keys, arity mismatches); its implementation is not part
of the excerpted sources. -/
structure QgsSettingsException where
  message : String

/-- Modelled from the spec: the backing key-value store capability
(`get(key) -> value-or-absent`, `set(key, value)`, `exists(key)`), which
the spec treats as an external collaborator (the real `QgsSettings`
storage engine is out of scope of the excerpted sources). -/
structure QgsSettings (V : Type) where
  entries : List (List String × V)

/-- Modelled from the spec: `get(key) -> value-or-absent` on the backing
store. -/
def QgsSettings.rawValue {V : Type} (s : QgsSettings V) (k : List String) : Option V :=
  (s.entries.find? (fun e => e.1 == k)).map (fun e => e.2)

/-- Modelled from the spec: a read with a fallback default, the shape used
by `QgsSettings::value(key, defaultValue)`. -/
def QgsSettings.value {V : Type} (s : QgsSettings V) (k : List String) (d : V) : V :=
  (s.rawValue k).getD d

/-- Modelled from the spec: `set(key, value)` on the backing store; the
most recent write for a key shadows earlier ones. -/
def QgsSettings.setValue {V : Type} (s : QgsSettings V) (k : List String) (v : V) :
    QgsSettings V :=
  ⟨(k, v) :: s.entries⟩

/-- Modelled from the spec: `exists(key) -> bool` on the backing store. -/
def QgsSettings.contains {V : Type} (s : QgsSettings V) (k : List String) : Bool :=
  (s.rawValue k).isSome

/-- One segment of a definition key: either a literal segment or a
placeholder (`%N` in the C++ key strings) to be substituted by a dynamic
key part. -/
inductive KeyPart where
  | lit (s : String)
  | dyn
deriving DecidableEq

/-- Number of placeholders of a definition key (the arity of dynamic key
parts the key expects). -/
def phCount : List KeyPart → Nat
  | [] => 0
  | KeyPart.lit _ :: r => phCount r
  | KeyPart.dyn :: r => phCount r + 1

/-- Substitutes the dynamic key parts for the placeholders of a definition
key, in order. -/
def renderKey : List KeyPart → List String → List String
  | [], _ => []
  | KeyPart.lit s :: r, ps => s :: renderKey r ps
  | KeyPart.dyn :: r, p :: ps => p :: renderKey r ps
  | KeyPart.dyn :: r, [] => "" :: renderKey r []

/-- The settings options of `Qgis::SettingsOptions`; only the
`SaveFormerValue` flag matters to the modelled behaviour. -/
structure SettingsOptions where
  saveFormerValue : Bool
deriving DecidableEq

/-- `QgsSettingsEntryBase`: a declared configuration point, with its
definition key (key template with placeholders), untyped default value,
description and options (`qgssettingsentry.h`). -/
structure QgsSettingsEntryBase (V : Type) where
  definitionKey : List KeyPart
  defaultValue : V
  description : String
  options : SettingsOptions

/-- Modelled from the spec: key resolution (`completeKeyPrivate`, whose
implementation is not part of the excerpted sources) — the full key is
obtained by substituting the supplied dynamic key parts for the
placeholders; the arity of supplied dynamic parts must match the
declared placeholders or resolution fails. -/
def QgsSettingsEntryBase.key {V : Type} (e : QgsSettingsEntryBase V)
    (dynamicKeyPartList : List String) : Option (List String) :=
  if dynamicKeyPartList.length = phCount e.definitionKey then
    some (renderKey e.definitionKey dynamicKeyPartList)
  else
    none

/-- `defaultValueAsVariant` returns the declared untyped default. -/
def QgsSettingsEntryBase.defaultValueAsVariant {V : Type} (e : QgsSettingsEntryBase V) : V :=
  e.defaultValue

/-- Modelled from the spec: `QgsSettingsEntryBase::exists` (implementation
not in the excerpted sources) passes through to the backing store at the
resolved key; a key that fails to resolve does not exist. -/
def QgsSettingsEntryBase.exists {V : Type} (e : QgsSettingsEntryBase V)
    (s : QgsSettings V) (dynamicKeyPartList : List String) : Bool :=
  match e.key dynamicKeyPartList with
  | some k => s.contains k
  | none => false

/-- Modelled from the spec: `valueAsVariant` (implementation not in the
excerpted sources) resolves the full key, reads from the backing store,
and returns the stored value if present else the declared default. -/
def QgsSettingsEntryBase.valueAsVariant {V : Type} (e : QgsSettingsEntryBase V)
    (s : QgsSettings V) (dynamicKeyPartList : List String) : Option V :=
  (e.key dynamicKeyPartList).map (fun k => s.value k e.defaultValue)

/-- Modelled from the spec: the secondary, previously-used key location of
the former-value mechanism, derived deterministically from the current
key (`formerValuekey`, implementation not in the excerpted sources). -/
def formerValueKeyOf (k : List String) : List String :=
  k ++ ["_formervalue"]

/-- Modelled from the spec: `formerValueAsVariant` (implementation not in
the excerpted sources) reads from the former key location; if no former
value exists it behaves exactly like `valueAsVariant` (current value, or
default when the current key is unwritten). -/
def QgsSettingsEntryBase.formerValueAsVariant {V : Type} (e : QgsSettingsEntryBase V)
    (s : QgsSettings V) (dynamicKeyPartList : List String) : Option V :=
  (e.key dynamicKeyPartList).map
    (fun k => (s.rawValue (formerValueKeyOf k)).getD (s.value k e.defaultValue))

/-- Modelled from the spec: `setVariantValuePrivate` (implementation not
in the excerpted sources) resolves the key, writes the untyped value to
the backing store and returns whether the write occurred; resolution
failure means no write. The pair is (returned boolean, store after the
call). -/
def QgsSettingsEntryBase.setVariantValuePrivate {V : Type} (e : QgsSettingsEntryBase V)
    (s : QgsSettings V) (v : V) (dynamicKeyPartList : List String) :
    Bool × QgsSettings V :=
  match e.key dynamicKeyPartList with
  | some k => (true, s.setValue k v)
  | none => (false, s)

/-- `QgsSettingsEntryByReference<T>`: typed view over
`QgsSettingsEntryBase` whose subclasses supply `convertFromVariant`,
`convertToVariant` and `checkValue` (`qgssettingsentry.h`). -/
structure QgsSettingsEntryByReference (T V : Type) where
  base : QgsSettingsEntryBase V
  convertFromVariant : V → T
  convertToVariant : T → V
  checkValue : T → Bool

/-- `value(dynamicKeyPartList)` of `QgsSettingsEntryByReference`:
`convertFromVariant( valueAsVariant( dynamicKeyPartList ) )`. -/
def QgsSettingsEntryByReference.value {T V : Type} (e : QgsSettingsEntryByReference T V)
    (s : QgsSettings V) (dynamicKeyPartList : List String) : Option T :=
  (e.base.valueAsVariant s dynamicKeyPartList).map e.convertFromVariant

/-- `valueWithDefaultOverride` of `QgsSettingsEntryByReference`: if the
setting exists, return `value`, else return the override (the inner
match is a modelling artifact of key resolution being partial; it is
never reached when the setting exists). -/
def QgsSettingsEntryByReference.valueWithDefaultOverride {T V : Type}
    (e : QgsSettingsEntryByReference T V) (s : QgsSettings V)
    (defaultValueOverride : T) (dynamicKeyPartList : List String) : T :=
  if e.base.exists s dynamicKeyPartList then
    match e.value s dynamicKeyPartList with
    | some t => t
    | none => defaultValueOverride
  else
    defaultValueOverride

/-- `setValuePrivate` of `QgsSettingsEntryByReference`: if `checkValue`
accepts the value, convert it and delegate to
`QgsSettingsEntryBase::setVariantValuePrivate`, else return false. -/
def QgsSettingsEntryByReference.setValuePrivate {T V : Type}
    (e : QgsSettingsEntryByReference T V) (s : QgsSettings V) (v : T)
    (dynamicKeyPartList : List String) : Bool × QgsSettings V :=
  if e.checkValue v then
    e.base.setVariantValuePrivate s (e.convertToVariant v) dynamicKeyPartList
  else
    (false, s)

/-- `setValue(value, dynamicKeyPartList)` of
`QgsSettingsEntryByReference` delegates to `setValuePrivate`. -/
def QgsSettingsEntryByReference.setValue {T V : Type}
    (e : QgsSettingsEntryByReference T V) (s : QgsSettings V) (v : T)
    (dynamicKeyPartList : List String) : Bool × QgsSettings V :=
  e.setValuePrivate s v dynamicKeyPartList

/-- `defaultValue` of `QgsSettingsEntryByReference`:
`convertFromVariant( defaultValueAsVariant() )`. -/
def QgsSettingsEntryByReference.defaultValue {T V : Type}
    (e : QgsSettingsEntryByReference T V) : T :=
  e.convertFromVariant e.base.defaultValueAsVariant

/-- `formerValue(dynamicKeyPartList)` of `QgsSettingsEntryByReference`:
`convertFromVariant( formerValueAsVariant( dynamicKeyPartList ) )`. -/
def QgsSettingsEntryByReference.formerValue {T V : Type}
    (e : QgsSettingsEntryByReference T V) (s : QgsSettings V)
    (dynamicKeyPartList : List String) : Option T :=
  (e.base.formerValueAsVariant s dynamicKeyPartList).map e.convertFromVariant

/-- `QgsSettingsEntryByValue<T>`: typed view over `QgsSettingsEntryBase`
passing `T` by value; same required hooks as the by-reference variant
(`qgssettingsentry.h`). -/
structure QgsSettingsEntryByValue (T V : Type) where
  base : QgsSettingsEntryBase V
  convertFromVariant : V → T
  convertToVariant : T → V
  checkValue : T → Bool

/-- `value(dynamicKeyPartList)` of `QgsSettingsEntryByValue`:
`convertFromVariant( valueAsVariant( dynamicKeyPartList ) )`. -/
def QgsSettingsEntryByValue.value {T V : Type} (e : QgsSettingsEntryByValue T V)
    (s : QgsSettings V) (dynamicKeyPartList : List String) : Option T :=
  (e.base.valueAsVariant s dynamicKeyPartList).map e.convertFromVariant

/-- `valueWithDefaultOverride` of `QgsSettingsEntryByValue`: if the
setting exists, return `value`, else return the override. -/
def QgsSettingsEntryByValue.valueWithDefaultOverride {T V : Type}
    (e : QgsSettingsEntryByValue T V) (s : QgsSettings V)
    (defaultValueOverride : T) (dynamicKeyPartList : List String) : T :=
  if e.base.exists s dynamicKeyPartList then
    match e.value s dynamicKeyPartList with
    | some t => t
    | none => defaultValueOverride
  else
    defaultValueOverride

/-- `setValuePrivate` of `QgsSettingsEntryByValue`: if `checkValue`
accepts the value, convert it and delegate to
`QgsSettingsEntryBase::setVariantValuePrivate`, else return false. -/
def QgsSettingsEntryByValue.setValuePrivate {T V : Type}
    (e : QgsSettingsEntryByValue T V) (s : QgsSettings V) (v : T)
    (dynamicKeyPartList : List String) : Bool × QgsSettings V :=
  if e.checkValue v then
    e.base.setVariantValuePrivate s (e.convertToVariant v) dynamicKeyPartList
  else
    (false, s)

/-- `setValue(value, dynamicKeyPartList)` of `QgsSettingsEntryByValue`
delegates to `setValuePrivate`. -/
def QgsSettingsEntryByValue.setValue {T V : Type}
    (e : QgsSettingsEntryByValue T V) (s : QgsSettings V) (v : T)
    (dynamicKeyPartList : List String) : Bool × QgsSettings V :=
  e.setValuePrivate s v dynamicKeyPartList

/-- `defaultValue` of `QgsSettingsEntryByValue`:
`convertFromVariant( defaultValueAsVariant() )`. -/
def QgsSettingsEntryByValue.defaultValue {T V : Type}
    (e : QgsSettingsEntryByValue T V) : T :=
  e.convertFromVariant e.base.defaultValueAsVariant

/-- `formerValue(dynamicKeyPartList)` of `QgsSettingsEntryByValue`:
`convertFromVariant( formerValueAsVariant( dynamicKeyPartList ) )`. -/
def QgsSettingsEntryByValue.formerValue {T V : Type}
    (e : QgsSettingsEntryByValue T V) (s : QgsSettings V)
    (dynamicKeyPartList : List String) : Option T :=
  (e.base.formerValueAsVariant s dynamicKeyPartList).map e.convertFromVariant

/-- The type of a settings tree node (`QgsSettingsTreeNode::Type`). -/
inductive NodeType where
  | root
  | standard
  | namedList
deriving DecidableEq

/-- `QgsSettingsTreeNode`: one level of the settings tree hierarchy, with
its type, local key, cached count of named-list nodes on the path from
the root, owned children nodes and registered children settings
(modelled by their local keys) — `qgssettingstreenode.h`. -/
inductive TreeNode where
  | mk (ty : NodeType) (key : String) (namedNodesCount : Nat)
       (childrenNodes : List TreeNode) (childrenSettings : List String)

/-- The type of the node. -/
def TreeNode.type : TreeNode → NodeType
  | .mk ty _ _ _ _ => ty

/-- The local key of the node. -/
def TreeNode.key : TreeNode → String
  | .mk _ k _ _ _ => k

/-- The cached number of named-list nodes in the complete key. -/
def TreeNode.namedNodesCount : TreeNode → Nat
  | .mk _ _ c _ _ => c

/-- The children nodes. -/
def TreeNode.childrenNodes : TreeNode → List TreeNode
  | .mk _ _ _ cn _ => cn

/-- The local keys of the registered children settings. -/
def TreeNode.childrenSettings : TreeNode → List String
  | .mk _ _ _ _ cs => cs

/-- Modelled from the spec: `childNode(key)` (implementation not in the
excerpted sources) looks up an existing child node by local key; absence
is a normal non-throwing outcome. -/
def TreeNode.childNode (t : TreeNode) (k : String) : Option TreeNode :=
  t.childrenNodes.find? (fun c => c.key == k)

/-- Modelled from the spec: `childSetting(key)` (implementation not in
the excerpted sources) looks up an existing child setting by local key. -/
def TreeNode.childSetting (t : TreeNode) (k : String) : Option String :=
  t.childrenSettings.find? (fun c => c == k)

/-- Modelled from the spec: `registerChildNode(node)` appends the node to
the children. -/
def TreeNode.registerChildNode : TreeNode → TreeNode → TreeNode
  | .mk ty k cnt cn cs, c => .mk ty k cnt (cn ++ [c]) cs

/-- Modelled from the spec: `createRootNode()` — a node with no parent,
type Root, named-nodes count 0, no children. -/
def createRootNode : TreeNode :=
  .mk NodeType.root "" 0 [] []

/-- Modelled from the spec: `createChildNode(key)` (implementation not in
the excerpted sources) returns the existing child when `key` already
names a Standard node at this parent, fails when `key` names something
of a different kind (a named-list node or a child setting), and
otherwise creates and registers a Standard node whose named-nodes count
equals the parent's. Returns the updated parent together with the
child. -/
def TreeNode.createChildNode (t : TreeNode) (k : String) :
    Except QgsSettingsException (TreeNode × TreeNode) :=
  match t.childNode k with
  | some c =>
    if c.type = NodeType.standard then
      Except.ok (t, c)
    else
      Except.error ⟨"a child with same key already exists with another type"⟩
  | none =>
    match t.childSetting k with
    | some _ => Except.error ⟨"a setting exists with the same key"⟩
    | none =>
      let c : TreeNode := .mk NodeType.standard k t.namedNodesCount [] []
      Except.ok (t.registerChildNode c, c)

/-- Modelled from the spec: `createNamedListNode(key, options)`
(implementation not in the excerpted sources) — as `createChildNode` but
with type NamedList and a named-nodes count one more than the parent's.
The selected-item option only affects the companion selected-item
setting and is not modelled. -/
def TreeNode.createNamedListNode (t : TreeNode) (k : String) :
    Except QgsSettingsException (TreeNode × TreeNode) :=
  match t.childNode k with
  | some c =>
    if c.type = NodeType.namedList then
      Except.ok (t, c)
    else
      Except.error ⟨"a child with same key already exists with another type"⟩
  | none =>
    match t.childSetting k with
    | some _ => Except.error ⟨"a setting exists with the same key"⟩
    | none =>
      let c : TreeNode := .mk NodeType.namedList k (t.namedNodesCount + 1) [] []
      Except.ok (t.registerChildNode c, c)

/-- Modelled from the spec: `registerChildSetting(setting, key)`
(implementation not in the excerpted sources) inserts the setting into
the children settings and fails when `key` collides with an existing
child node or child setting at this level. Returns the updated node. -/
def TreeNode.registerChildSetting (t : TreeNode) (k : String) :
    Except QgsSettingsException TreeNode :=
  match t.childNode k with
  | some _ => Except.error ⟨"a tree node with the same key already exists"⟩
  | none =>
    match t.childSetting k with
    | some _ => Except.error ⟨"a setting with the same key already exists"⟩
    | none =>
      match t with
      | .mk ty key cnt cn cs => Except.ok (.mk ty key cnt cn (cs ++ [k]))

/-- The named-nodes count a child must carry, given its parent's count
and the child's type: one more for a named-list node, the parent's count
otherwise. -/
def childNamedNodesCount (parentCount : Nat) (ty : NodeType) : Nat :=
  match ty with
  | NodeType.namedList => parentCount + 1
  | _ => parentCount

mutual

/-- The named-nodes-count invariant of the tree below a node: every child
carries the count determined by its parent's count and its own type,
recursively. -/
def namedNodesCountOk : TreeNode → Bool
  | .mk _ _ cnt cn _ => childrenCountOk cnt cn

/-- The named-nodes-count invariant for a list of children of a node with
the given count. -/
def childrenCountOk : Nat → List TreeNode → Bool
  | _, [] => true
  | pc, c :: rest =>
    (decide (c.namedNodesCount = childNamedNodesCount pc c.type)
      && namedNodesCountOk c)
      && childrenCountOk pc rest

end

/-- Replaces every child node carrying the given local key by the given
node (keys are unique at a level in any tree built by the creation
operations, so at most one child is replaced there). -/
def TreeNode.replaceChild : TreeNode → String → TreeNode → TreeNode
  | .mk ty k cnt cn cs, key, newC =>
    .mk ty k cnt (cn.map (fun c => if c.key = key then newC else c)) cs

/-- Applies a fallible local operation at the node reached by following
the given path of local keys from a node, rebuilding the tree on the way
up; fails when the path does not exist or the local operation fails. -/
def applyAtPath (f : TreeNode → Option TreeNode) :
    List String → TreeNode → Option TreeNode
  | [], t => f t
  | k :: rest, t =>
    match t.childNode k with
    | none => none
    | some c =>
      match applyAtPath f rest c with
      | none => none
      | some c2 => some (t.replaceChild k c2)

/-- A tree-building operation applied at the node named by a path of
local keys: create a Standard child node, create a NamedList child node,
or register a child setting. -/
inductive BuildOp where
  | childAt (path : List String) (key : String)
  | namedListAt (path : List String) (key : String)
  | settingAt (path : List String) (key : String)

/-- Applies one building operation to a tree. -/
def applyOp (t : TreeNode) : BuildOp → Option TreeNode
  | .childAt p k =>
    applyAtPath (fun n => (n.createChildNode k).toOption.map (fun r => r.1)) p t
  | .namedListAt p k =>
    applyAtPath (fun n => (n.createNamedListNode k).toOption.map (fun r => r.1)) p t
  | .settingAt p k =>
    applyAtPath (fun n => (n.registerChildSetting k).toOption) p t

/-- Applies a sequence of building operations starting from a tree. -/
def buildFrom (t : TreeNode) : List BuildOp → Option TreeNode
  | [] => some t
  | op :: rest =>
    match applyOp t op with
    | none => none
    | some t2 => buildFrom t2 rest

/-- Every tree reachable by `createRootNode` / `createChildNode` /
`createNamedListNode` / `registerChildSetting`: the given operations
applied in order to a fresh root node. -/
def buildTree (ops : List BuildOp) : Option TreeNode :=
  buildFrom createRootNode ops

/-- `QgsSettingsTreeNamedListNode`: a named-list node, keeping its cached
named-nodes count and the key prefix used to enumerate existing items
(`mItemsCompleteKey`) — `qgssettingstreenode.h`. -/
structure QgsSettingsTreeNamedListNode where
  namedNodesCount : Nat
  itemsCompleteKey : List KeyPart

/-- Modelled from the spec: the scan of the backing store enumerating the
distinct wildcard captures directly below a key prefix. -/
def itemsScan {V : Type} (s : QgsSettings V) (pre : List String) : List String :=
  (s.entries.filterMap
    (fun kv => if pre.isPrefixOf kv.1 then (kv.1.drop pre.length).head? else none)).dedup

/-- Modelled from the spec: `QgsSettingsTreeNamedListNode::items`
(implementation not in the excerpted sources) — fails with an arity error
when the number of given parent named items does not match
`namedNodesCount - 1` (counts compared as integers, as in the C++
`int` arithmetic), and otherwise enumerates the existing items by
scanning the backing store below `itemsCompleteKey` with the parent
named items substituted for the outer placeholders. -/
def QgsSettingsTreeNamedListNode.items {V : Type} (n : QgsSettingsTreeNamedListNode)
    (s : QgsSettings V) (parentsNamedItems : List String) :
    Except QgsSettingsException (List String) :=
  if (n.namedNodesCount : Int) - 1 ≠ (parentsNamedItems.length : Int) then
    Except.error ⟨"the number of given parent named items does not match the key definition"⟩
  else
    Except.ok (itemsScan s (renderKey n.itemsCompleteKey parentsNamedItems))

theorem QgsSettings.rawValue_setValue_self {V : Type} (s : QgsSettings V)
    (k : List String) (v : V) : (s.setValue k v).rawValue k = some v := by
  unfold QgsSettings.setValue QgsSettings.rawValue
  rw [List.find?_cons_of_pos]
  · rfl
  · exact beq_self_eq_true k

/-- Claim C2: for every typed entry, every value accepted by `checkValue`
and every matching list of dynamic key parts, `setValue` followed by
`value` returns the value, modulo the declared
`convertToVariant`/`convertFromVariant` conversion. -/
theorem setValue_value_roundTrip {T V : Type} (e : QgsSettingsEntryByReference T V)
    (s : QgsSettings V) (v : T) (ps : List String)
    (hchk : e.checkValue v = true)
    (harity : ps.length = phCount e.base.definitionKey) :
    e.value (e.setValue s v ps).2 ps
      = some (e.convertFromVariant (e.convertToVariant v)) := by
  unfold QgsSettingsEntryByReference.setValue QgsSettingsEntryByReference.setValuePrivate
  rw [hchk]
  unfold QgsSettingsEntryBase.setVariantValuePrivate QgsSettingsEntryBase.key
  rw [if_pos harity]
  unfold QgsSettingsEntryByReference.value QgsSettingsEntryBase.valueAsVariant
  unfold QgsSettingsEntryBase.key
  rw [if_pos harity]
  simp [QgsSettings.value, QgsSettings.rawValue_setValue_self]

/-- Demonstration entry for the round-trip claim: an integer-typed entry
with identity conversions under the fixed key `app/t`. -/
def demoEntryRoundTrip : QgsSettingsEntryByReference Int Int :=
  ⟨⟨[KeyPart.lit "app", KeyPart.lit "t"], 30, "", ⟨false⟩⟩, id, id, fun _ => true⟩

theorem setValue_value_roundTrip_witness :
    demoEntryRoundTrip.checkValue 45 = true
  ∧ ([] : List String).length = phCount demoEntryRoundTrip.base.definitionKey
  ∧ demoEntryRoundTrip.value (demoEntryRoundTrip.setValue ⟨[]⟩ 45 []).2 []
      = some (demoEntryRoundTrip.convertFromVariant
          (demoEntryRoundTrip.convertToVariant 45)) :=
  ⟨rfl, rfl, setValue_value_roundTrip demoEntryRoundTrip ⟨[]⟩ 45 [] rfl rfl⟩

/-- Claim C3: `setValue` first runs the `checkValue` gate: a rejected
value yields `false` with the backing store unchanged; an accepted value
is converted and written (at the resolved key, when the dynamic key
parts match) and the boolean reports that the write occurred. -/
theorem setValue_checkValue_gate {T V : Type} (e : QgsSettingsEntryByReference T V)
    (s : QgsSettings V) (v : T) (ps : List String) :
    (e.checkValue v = false → e.setValue s v ps = (false, s))
  ∧ (e.checkValue v = true → ps.length = phCount e.base.definitionKey →
      e.setValue s v ps
        = (true, s.setValue (renderKey e.base.definitionKey ps) (e.convertToVariant v))) := by
  constructor
  · intro hchk
    unfold QgsSettingsEntryByReference.setValue QgsSettingsEntryByReference.setValuePrivate
    rw [hchk]
    simp
  · intro hchk harity
    unfold QgsSettingsEntryByReference.setValue QgsSettingsEntryByReference.setValuePrivate
    rw [hchk]
    unfold QgsSettingsEntryBase.setVariantValuePrivate QgsSettingsEntryBase.key
    rw [if_pos harity]
    simp

/-- Demonstration entry for the `checkValue` gate claim: an integer-typed
entry accepting only nonnegative values. -/
def demoEntryGate : QgsSettingsEntryByReference Int Int :=
  ⟨⟨[KeyPart.lit "app", KeyPart.lit "n"], 0, "", ⟨false⟩⟩, id, id, fun t => decide (0 ≤ t)⟩

theorem setValue_checkValue_gate_witness :
    (demoEntryGate.checkValue (-1) = false
      → demoEntryGate.setValue ⟨[]⟩ (-1) [] = (false, (⟨[]⟩ : QgsSettings Int)))
  ∧ (demoEntryGate.checkValue 5 = true
      → ([] : List String).length = phCount demoEntryGate.base.definitionKey
      → demoEntryGate.setValue ⟨[]⟩ 5 []
          = (true, QgsSettings.setValue ⟨[]⟩ (renderKey demoEntryGate.base.definitionKey [])
              (demoEntryGate.convertToVariant 5))) :=
  ⟨(setValue_checkValue_gate demoEntryGate ⟨[]⟩ (-1) []).1,
   (setValue_checkValue_gate demoEntryGate ⟨[]⟩ 5 []).2⟩

/-- Claim C6: for a typed entry whose resolved key is absent from the
backing store, `value` falls back to the declared default run through
`convertFromVariant`, i.e. equals `defaultValue()`. -/
theorem value_defaultValue_fallback {T V : Type} (e : QgsSettingsEntryByReference T V)
    (s : QgsSettings V) (ps : List String) (k : List String)
    (hk : e.base.key ps = some k) (habsent : s.rawValue k = none) :
    e.value s ps = some e.defaultValue := by
  unfold QgsSettingsEntryByReference.value QgsSettingsEntryBase.valueAsVariant
  rw [hk]
  simp [QgsSettings.value, habsent, QgsSettingsEntryByReference.defaultValue,
    QgsSettingsEntryBase.defaultValueAsVariant]

/-- Demonstration entry for the default-fallback claim. -/
def demoEntryDefault : QgsSettingsEntryByReference Int Int :=
  ⟨⟨[KeyPart.lit "app", KeyPart.lit "d"], 30, "", ⟨false⟩⟩, id, id, fun _ => true⟩

theorem value_defaultValue_fallback_witness :
    demoEntryDefault.base.key [] = some ["app", "d"]
  ∧ (QgsSettings.rawValue (V := Int) ⟨[]⟩ ["app", "d"]) = none
  ∧ demoEntryDefault.value ⟨[]⟩ [] = some demoEntryDefault.defaultValue :=
  ⟨rfl, rfl, value_defaultValue_fallback demoEntryDefault ⟨[]⟩ [] ["app", "d"] rfl rfl⟩

/-- Claim C7: with former-value migration enabled, when no value is
stored at the former key location `formerValue` returns exactly what
`value` returns, and when a value is stored at the former key location
`formerValue` returns that value (through `convertFromVariant`). -/
theorem formerValue_migration {T V : Type} (e : QgsSettingsEntryByReference T V)
    (s : QgsSettings V) (ps : List String) (k : List String)
    (_hopt : e.base.options.saveFormerValue = true)
    (hk : e.base.key ps = some k) :
    (s.rawValue (formerValueKeyOf k) = none → e.formerValue s ps = e.value s ps)
  ∧ (∀ w, s.rawValue (formerValueKeyOf k) = some w →
      e.formerValue s ps = some (e.convertFromVariant w)) := by
  constructor
  · intro habsent
    unfold QgsSettingsEntryByReference.formerValue QgsSettingsEntryBase.formerValueAsVariant
    unfold QgsSettingsEntryByReference.value QgsSettingsEntryBase.valueAsVariant
    rw [hk]
    simp [habsent]
  · intro w hw
    unfold QgsSettingsEntryByReference.formerValue QgsSettingsEntryBase.formerValueAsVariant
    rw [hk]
    simp [hw]

/-- Demonstration entry for the former-value claim: former-value
migration enabled, former key location holding 7. -/
def demoEntryFormer : QgsSettingsEntryByReference Int Int :=
  ⟨⟨[KeyPart.lit "app", KeyPart.lit "f"], 30, "", ⟨true⟩⟩, id, id, fun _ => true⟩

/-- Demonstration store for the former-value claim: a value stored only
at the former key location of `app/f`. -/
def demoStoreFormer : QgsSettings Int :=
  ⟨[(["app", "f", "_formervalue"], 7)]⟩

theorem formerValue_migration_witness :
    (demoEntryFormer.base.options.saveFormerValue = true)
  ∧ (demoEntryFormer.base.key [] = some ["app", "f"])
  ∧ (QgsSettings.rawValue (V := Int) ⟨[]⟩ (formerValueKeyOf ["app", "f"]) = none
      → QgsSettingsEntryByReference.formerValue demoEntryFormer ⟨[]⟩ []
          = demoEntryFormer.value ⟨[]⟩ [])
  ∧ (demoStoreFormer.rawValue (formerValueKeyOf ["app", "f"]) = some 7
      → demoEntryFormer.formerValue demoStoreFormer []
          = some (demoEntryFormer.convertFromVariant 7)) :=
  ⟨rfl, rfl,
   (formerValue_migration demoEntryFormer ⟨[]⟩ [] ["app", "f"] rfl rfl).1,
   fun hw => (formerValue_migration demoEntryFormer demoStoreFormer [] ["app", "f"] rfl rfl).2 7 hw⟩

/-- Claim C9: `QgsSettingsEntryByValue` and `QgsSettingsEntryByReference`
built from the same key, default, options and conversion/validation
functions are observably equivalent: `value`, `setValue` (result and
backing-store writes), `valueWithDefaultOverride`, `defaultValue` and
`formerValue` coincide. -/
theorem byValue_byReference_equivalent {T V : Type} (b : QgsSettingsEntryBase V)
    (cf : V → T) (ct : T → V) (chk : T → Bool)
    (s : QgsSettings V) (v d : T) (ps : List String) :
    QgsSettingsEntryByReference.value ⟨b, cf, ct, chk⟩ s ps
      = QgsSettingsEntryByValue.value ⟨b, cf, ct, chk⟩ s ps
  ∧ QgsSettingsEntryByReference.setValue ⟨b, cf, ct, chk⟩ s v ps
      = QgsSettingsEntryByValue.setValue ⟨b, cf, ct, chk⟩ s v ps
  ∧ QgsSettingsEntryByReference.valueWithDefaultOverride ⟨b, cf, ct, chk⟩ s d ps
      = QgsSettingsEntryByValue.valueWithDefaultOverride ⟨b, cf, ct, chk⟩ s d ps
  ∧ QgsSettingsEntryByReference.defaultValue (T := T) (V := V) ⟨b, cf, ct, chk⟩
      = QgsSettingsEntryByValue.defaultValue ⟨b, cf, ct, chk⟩
  ∧ QgsSettingsEntryByReference.formerValue ⟨b, cf, ct, chk⟩ s ps
      = QgsSettingsEntryByValue.formerValue ⟨b, cf, ct, chk⟩ s ps :=
  ⟨rfl, rfl, rfl, rfl, rfl⟩

/-- Claim C10: `valueWithDefaultOverride` returns `value` when the
setting exists in the backing store and returns the override unchanged
when it does not; the declared default value plays no role. -/
theorem valueWithDefaultOverride_override {T V : Type}
    (e : QgsSettingsEntryByReference T V) (s : QgsSettings V) (d : T)
    (ps : List String) :
    (e.base.exists s ps = true →
      some (e.valueWithDefaultOverride s d ps) = e.value s ps)
  ∧ (e.base.exists s ps = false → e.valueWithDefaultOverride s d ps = d) := by
  constructor
  · intro hex
    unfold QgsSettingsEntryByReference.valueWithDefaultOverride
    rw [hex]
    have hval : ∃ t, e.value s ps = some t := by
      unfold QgsSettingsEntryBase.exists at hex
      unfold QgsSettingsEntryByReference.value QgsSettingsEntryBase.valueAsVariant
      cases hk : e.base.key ps with
      | none => rw [hk] at hex; exact absurd hex (by simp)
      | some k => simp
    obtain ⟨t, ht⟩ := hval
    rw [ht]
    simp
  · intro hex
    unfold QgsSettingsEntryByReference.valueWithDefaultOverride
    rw [hex]
    simp

/-- Demonstration entry for the default-override claim. -/
def demoEntryOverride : QgsSettingsEntryByReference Int Int :=
  ⟨⟨[KeyPart.lit "app", KeyPart.lit "o"], 30, "", ⟨false⟩⟩, id, id, fun _ => true⟩

/-- Demonstration store for the default-override claim: the entry's key
is present with value 11. -/
def demoStoreOverride : QgsSettings Int :=
  ⟨[(["app", "o"], 11)]⟩

theorem valueWithDefaultOverride_override_witness :
    (demoEntryOverride.base.exists demoStoreOverride [] = true
      → some (demoEntryOverride.valueWithDefaultOverride demoStoreOverride 99 [])
          = demoEntryOverride.value demoStoreOverride [])
  ∧ (QgsSettingsEntryBase.exists demoEntryOverride.base (V := Int) ⟨[]⟩ [] = false
      → QgsSettingsEntryByReference.valueWithDefaultOverride demoEntryOverride ⟨[]⟩ 99 [] = 99) :=
  ⟨(valueWithDefaultOverride_override demoEntryOverride demoStoreOverride 99 []).1,
   (valueWithDefaultOverride_override demoEntryOverride ⟨[]⟩ 99 []).2⟩

theorem TreeNode.type_mk (ty : NodeType) (k : String) (cnt : Nat)
    (cn : List TreeNode) (cs : List String) :
    (TreeNode.mk ty k cnt cn cs).type = ty := rfl

theorem TreeNode.key_mk (ty : NodeType) (k : String) (cnt : Nat)
    (cn : List TreeNode) (cs : List String) :
    (TreeNode.mk ty k cnt cn cs).key = k := rfl

theorem TreeNode.namedNodesCount_mk (ty : NodeType) (k : String) (cnt : Nat)
    (cn : List TreeNode) (cs : List String) :
    (TreeNode.mk ty k cnt cn cs).namedNodesCount = cnt := rfl

theorem TreeNode.childrenNodes_mk (ty : NodeType) (k : String) (cnt : Nat)
    (cn : List TreeNode) (cs : List String) :
    (TreeNode.mk ty k cnt cn cs).childrenNodes = cn := rfl

theorem TreeNode.childrenSettings_mk (ty : NodeType) (k : String) (cnt : Nat)
    (cn : List TreeNode) (cs : List String) :
    (TreeNode.mk ty k cnt cn cs).childrenSettings = cs := rfl

theorem namedNodesCountOk_mk (ty : NodeType) (k : String) (cnt : Nat)
    (cn : List TreeNode) (cs : List String) :
    namedNodesCountOk (TreeNode.mk ty k cnt cn cs) = childrenCountOk cnt cn := by
  rw [namedNodesCountOk]

/-- Claim C1: for a named-list node, `items(parentsNamedItems)` succeeds
(returning the enumeration of existing items) exactly when the number of
parent named items equals `namedNodesCount - 1`, and fails with a
`QgsSettingsException` otherwise. -/
theorem namedListNode_items_arity (n : QgsSettingsTreeNamedListNode) {V : Type}
    (s : QgsSettings V) (ps : List String) :
    ((ps.length : Int) = (n.namedNodesCount : Int) - 1 →
        ∃ l, n.items s ps = Except.ok l)
  ∧ ((ps.length : Int) ≠ (n.namedNodesCount : Int) - 1 →
        ∃ ex, n.items s ps = Except.error ex) := by
  constructor
  · intro h
    unfold QgsSettingsTreeNamedListNode.items
    rw [if_neg (by omega)]
    exact ⟨_, rfl⟩
  · intro h
    unfold QgsSettingsTreeNamedListNode.items
    rw [if_pos (by omega)]
    exact ⟨_, rfl⟩

/-- Demonstration named-list node: `namedNodesCount = 2`, items key
`network/%1/servers` with one outer placeholder. -/
def demoNamedList : QgsSettingsTreeNamedListNode :=
  ⟨2, [KeyPart.lit "network", KeyPart.dyn, KeyPart.lit "servers"]⟩

theorem namedListNode_items_arity_witness :
    ((["prod"].length : Int) = (demoNamedList.namedNodesCount : Int) - 1
      ∧ ∃ l, demoNamedList.items (V := Int) ⟨[]⟩ ["prod"] = Except.ok l)
  ∧ ((([] : List String).length : Int) ≠ (demoNamedList.namedNodesCount : Int) - 1
      ∧ ∃ ex, demoNamedList.items (V := Int) ⟨[]⟩ [] = Except.error ex) :=
  ⟨⟨by decide, (namedListNode_items_arity demoNamedList ⟨[]⟩ ["prod"]).1 (by decide)⟩,
   ⟨by decide, (namedListNode_items_arity demoNamedList ⟨[]⟩ []).2 (by decide)⟩⟩

/-- Claim C4: `createChildNode` is an idempotent lookup-or-create: after
a successful call returning a child for key `k`, calling it again on the
resulting parent with the same `k` returns the identical parent and
child (the second call finds the node created or found by the first). -/
theorem createChildNode_idempotent (t t1 c : TreeNode) (k : String)
    (h : t.createChildNode k = Except.ok (t1, c)) :
    t1.createChildNode k = Except.ok (t1, c) := by
  unfold TreeNode.createChildNode at h ⊢
  cases hc : t.childNode k with
  | some c0 =>
    rw [hc] at h
    simp only [] at h
    by_cases hty : c0.type = NodeType.standard
    · rw [if_pos hty] at h
      simp only [Except.ok.injEq, Prod.mk.injEq] at h
      obtain ⟨ht1, hc1⟩ := h
      subst ht1
      subst hc1
      rw [hc]
      simp only []
      rw [if_pos hty]
    · rw [if_neg hty] at h
      exact absurd h (by simp)
  | none =>
    rw [hc] at h
    simp only [] at h
    cases hs : t.childSetting k with
    | some e0 =>
      rw [hs] at h
      exact absurd h (by simp)
    | none =>
      rw [hs] at h
      simp only [Except.ok.injEq, Prod.mk.injEq] at h
      obtain ⟨ht1, hc1⟩ := h
      subst ht1
      subst hc1
      cases t with
      | mk ty key cnt cn cs =>
        have hfind : (TreeNode.mk ty key cnt cn cs
            |>.registerChildNode (TreeNode.mk NodeType.standard k
                (TreeNode.mk ty key cnt cn cs).namedNodesCount [] [])).childNode k
            = some (TreeNode.mk NodeType.standard k
                (TreeNode.mk ty key cnt cn cs).namedNodesCount [] []) := by
          unfold TreeNode.childNode at hc ⊢
          unfold TreeNode.registerChildNode
          rw [TreeNode.childrenNodes_mk] at hc ⊢
          rw [List.find?_append, hc]
          simp [TreeNode.key_mk]
        rw [hfind]
        simp only []
        rw [if_pos (TreeNode.type_mk _ _ _ _ _)]

/-- Demonstration tree for the idempotent-creation claim: the result of
creating child node `a` under a fresh root. -/
def demoTreeAfterA : TreeNode :=
  TreeNode.mk NodeType.root "" 0 [TreeNode.mk NodeType.standard "a" 0 [] []] []

/-- Demonstration child node for the idempotent-creation claim. -/
def demoChildA : TreeNode :=
  TreeNode.mk NodeType.standard "a" 0 [] []

theorem createChildNode_idempotent_witness :
    createRootNode.createChildNode "a" = Except.ok (demoTreeAfterA, demoChildA)
  ∧ demoTreeAfterA.createChildNode "a" = Except.ok (demoTreeAfterA, demoChildA) :=
  ⟨rfl, createChildNode_idempotent createRootNode demoTreeAfterA demoChildA "a" rfl⟩

/-- Claim C5: registering a child setting under a key already naming an
existing child node or child setting fails with a
`QgsSettingsException`; after a successful registration, a second
registration with the same key fails while the first stays in place. -/
theorem registerChildSetting_unique (t t1 : TreeNode) (k : String) :
    ((t.childNode k).isSome = true ∨ (t.childSetting k).isSome = true →
        ∃ ex, t.registerChildSetting k = Except.error ex)
  ∧ (t.registerChildSetting k = Except.ok t1 →
        t1.childSetting k = some k ∧ ∃ ex, t1.registerChildSetting k = Except.error ex) := by
  constructor
  · intro hcol
    unfold TreeNode.registerChildSetting
    cases hc : t.childNode k with
    | some c0 => exact ⟨_, rfl⟩
    | none =>
      cases hs : t.childSetting k with
      | some e0 => exact ⟨_, rfl⟩
      | none =>
        rw [hc, hs] at hcol
        simp at hcol
  · intro h
    unfold TreeNode.registerChildSetting at h
    cases hc : t.childNode k with
    | some c0 =>
      rw [hc] at h
      exact absurd h (by simp)
    | none =>
      rw [hc] at h
      cases hs : t.childSetting k with
      | some e0 =>
        rw [hs] at h
        exact absurd h (by simp)
      | none =>
        rw [hs] at h
        cases t with
        | mk ty key cnt cn cs =>
          simp only [Except.ok.injEq] at h
          subst h
          have hsettingFound : (TreeNode.mk ty key cnt cn (cs ++ [k])).childSetting k
              = some k := by
            unfold TreeNode.childSetting at hs ⊢
            rw [TreeNode.childrenSettings_mk] at hs ⊢
            rw [List.find?_append, hs]
            simp
          refine ⟨hsettingFound, ?_⟩
          unfold TreeNode.registerChildSetting
          have hnode : (TreeNode.mk ty key cnt cn (cs ++ [k])).childNode k = none := by
            unfold TreeNode.childNode at hc ⊢
            rw [TreeNode.childrenNodes_mk] at hc ⊢
            exact hc
          rw [hnode, hsettingFound]
          exact ⟨_, rfl⟩

/-- Demonstration tree for the unique-registration claim: a root with the
single child setting `s`. -/
def demoTreeWithSetting : TreeNode :=
  TreeNode.mk NodeType.root "" 0 [] ["s"]

theorem registerChildSetting_unique_witness :
    createRootNode.registerChildSetting "s" = Except.ok demoTreeWithSetting
  ∧ demoTreeWithSetting.childSetting "s" = some "s"
  ∧ ∃ ex, demoTreeWithSetting.registerChildSetting "s" = Except.error ex :=
  ⟨rfl,
   ((registerChildSetting_unique createRootNode demoTreeWithSetting "s").2 rfl).1,
   ((registerChildSetting_unique createRootNode demoTreeWithSetting "s").2 rfl).2⟩

theorem childrenCountOk_append (pc : Nat) (l1 l2 : List TreeNode) :
    childrenCountOk pc (l1 ++ l2) = (childrenCountOk pc l1 && childrenCountOk pc l2) := by
  induction l1 with
  | nil => simp [childrenCountOk]
  | cons c rest ih => simp [childrenCountOk, ih, Bool.and_assoc]

theorem childrenCountOk_mem (pc : Nat) (l : List TreeNode) (c : TreeNode)
    (h : childrenCountOk pc l = true) (hm : c ∈ l) :
    c.namedNodesCount = childNamedNodesCount pc c.type ∧ namedNodesCountOk c = true := by
  induction l with
  | nil => cases hm
  | cons d rest ih =>
    simp only [childrenCountOk, Bool.and_eq_true, decide_eq_true_eq] at h
    obtain ⟨⟨hd1, hd2⟩, hrest⟩ := h
    cases hm with
    | head => exact ⟨hd1, hd2⟩
    | tail _ hm2 => exact ih hrest hm2

theorem childrenCountOk_map_replace (pc : Nat) (l : List TreeNode) (k0 : String)
    (c2 : TreeNode) (h : childrenCountOk pc l = true)
    (h2a : c2.namedNodesCount = childNamedNodesCount pc c2.type)
    (h2b : namedNodesCountOk c2 = true) :
    childrenCountOk pc (l.map (fun d => if d.key = k0 then c2 else d)) = true := by
  induction l with
  | nil => simp [childrenCountOk]
  | cons d rest ih =>
    simp only [childrenCountOk, Bool.and_eq_true, decide_eq_true_eq] at h
    obtain ⟨⟨hd1, hd2⟩, hrest⟩ := h
    simp only [List.map_cons, childrenCountOk, Bool.and_eq_true, decide_eq_true_eq]
    refine ⟨?_, ih hrest⟩
    by_cases hdk : d.key = k0
    · rw [if_pos hdk]
      exact ⟨h2a, h2b⟩
    · rw [if_neg hdk]
      exact ⟨hd1, hd2⟩

/-- A local tree operation preserves the node's identity (type, key,
named-nodes count) and the named-nodes-count invariant. -/
def localPreserves (f : TreeNode → Option TreeNode) : Prop :=
  ∀ t t2, f t = some t2 →
    t2.type = t.type ∧ t2.key = t.key ∧ t2.namedNodesCount = t.namedNodesCount
      ∧ (namedNodesCountOk t = true → namedNodesCountOk t2 = true)

theorem createChildNode_ok_preserves (t t1 c : TreeNode) (k : String)
    (h : t.createChildNode k = Except.ok (t1, c)) :
    t1.type = t.type ∧ t1.key = t.key ∧ t1.namedNodesCount = t.namedNodesCount
      ∧ (namedNodesCountOk t = true → namedNodesCountOk t1 = true) := by
  unfold TreeNode.createChildNode at h
  cases hc : t.childNode k with
  | some c0 =>
    rw [hc] at h
    simp only [] at h
    by_cases hty : c0.type = NodeType.standard
    · rw [if_pos hty] at h
      simp only [Except.ok.injEq, Prod.mk.injEq] at h
      obtain ⟨ht1, _⟩ := h
      subst ht1
      exact ⟨rfl, rfl, rfl, fun x => x⟩
    · rw [if_neg hty] at h
      exact absurd h (by simp)
  | none =>
    rw [hc] at h
    simp only [] at h
    cases hs : t.childSetting k with
    | some e0 =>
      rw [hs] at h
      exact absurd h (by simp)
    | none =>
      rw [hs] at h
      simp only [Except.ok.injEq, Prod.mk.injEq] at h
      obtain ⟨ht1, _⟩ := h
      subst ht1
      cases t with
      | mk ty key cnt cn cs =>
        refine ⟨rfl, rfl, rfl, ?_⟩
        intro htok
        rw [namedNodesCountOk_mk] at htok
        unfold TreeNode.registerChildNode
        rw [namedNodesCountOk_mk, childrenCountOk_append]
        simp [htok, childrenCountOk, childNamedNodesCount,
          TreeNode.namedNodesCount_mk, TreeNode.type_mk, namedNodesCountOk_mk]

theorem createNamedListNode_ok_preserves (t t1 c : TreeNode) (k : String)
    (h : t.createNamedListNode k = Except.ok (t1, c)) :
    t1.type = t.type ∧ t1.key = t.key ∧ t1.namedNodesCount = t.namedNodesCount
      ∧ (namedNodesCountOk t = true → namedNodesCountOk t1 = true) := by
  unfold TreeNode.createNamedListNode at h
  cases hc : t.childNode k with
  | some c0 =>
    rw [hc] at h
    simp only [] at h
    by_cases hty : c0.type = NodeType.namedList
    · rw [if_pos hty] at h
      simp only [Except.ok.injEq, Prod.mk.injEq] at h
      obtain ⟨ht1, _⟩ := h
      subst ht1
      exact ⟨rfl, rfl, rfl, fun x => x⟩
    · rw [if_neg hty] at h
      exact absurd h (by simp)
  | none =>
    rw [hc] at h
    simp only [] at h
    cases hs : t.childSetting k with
    | some e0 =>
      rw [hs] at h
      exact absurd h (by simp)
    | none =>
      rw [hs] at h
      simp only [Except.ok.injEq, Prod.mk.injEq] at h
      obtain ⟨ht1, _⟩ := h
      subst ht1
      cases t with
      | mk ty key cnt cn cs =>
        refine ⟨rfl, rfl, rfl, ?_⟩
        intro htok
        rw [namedNodesCountOk_mk] at htok
        unfold TreeNode.registerChildNode
        rw [namedNodesCountOk_mk, childrenCountOk_append]
        simp [htok, childrenCountOk, childNamedNodesCount,
          TreeNode.namedNodesCount_mk, TreeNode.type_mk, namedNodesCountOk_mk]

theorem registerChildSetting_ok_preserves (t t1 : TreeNode) (k : String)
    (h : t.registerChildSetting k = Except.ok t1) :
    t1.type = t.type ∧ t1.key = t.key ∧ t1.namedNodesCount = t.namedNodesCount
      ∧ (namedNodesCountOk t = true → namedNodesCountOk t1 = true) := by
  unfold TreeNode.registerChildSetting at h
  cases hc : t.childNode k with
  | some c0 =>
    rw [hc] at h
    exact absurd h (by simp)
  | none =>
    rw [hc] at h
    simp only [] at h
    cases hs : t.childSetting k with
    | some e0 =>
      rw [hs] at h
      exact absurd h (by simp)
    | none =>
      rw [hs] at h
      cases t with
      | mk ty key cnt cn cs =>
        simp only [Except.ok.injEq] at h
        subst h
        refine ⟨rfl, rfl, rfl, ?_⟩
        intro htok
        rw [namedNodesCountOk_mk] at htok
        rw [namedNodesCountOk_mk]
        exact htok

theorem applyAtPath_preserves (f : TreeNode → Option TreeNode)
    (hf : localPreserves f) (path : List String) :
    ∀ t t2, applyAtPath f path t = some t2 →
      t2.type = t.type ∧ t2.key = t.key ∧ t2.namedNodesCount = t.namedNodesCount
        ∧ (namedNodesCountOk t = true → namedNodesCountOk t2 = true) := by
  induction path with
  | nil =>
    intro t t2 h
    exact hf t t2 h
  | cons k0 rest ih =>
    intro t t2 h
    unfold applyAtPath at h
    cases hc : t.childNode k0 with
    | none =>
      rw [hc] at h
      exact absurd h (by simp)
    | some c =>
      rw [hc] at h
      simp only [] at h
      cases hrec : applyAtPath f rest c with
      | none =>
        rw [hrec] at h
        exact absurd h (by simp)
      | some c2 =>
        rw [hrec] at h
        simp only [Option.some.injEq] at h
        subst h
        obtain ⟨hty, hkey, hcnt, hok⟩ := ih c c2 hrec
        have hmem : c ∈ t.childrenNodes := by
          unfold TreeNode.childNode at hc
          exact List.mem_of_find?_eq_some hc
        cases t with
        | mk ty key cnt cn cs =>
          refine ⟨rfl, rfl, rfl, ?_⟩
          intro htok
          rw [namedNodesCountOk_mk] at htok
          unfold TreeNode.replaceChild
          rw [namedNodesCountOk_mk]
          rw [TreeNode.childrenNodes_mk] at hmem
          obtain ⟨hcrel, hcok⟩ := childrenCountOk_mem cnt cn c htok hmem
          refine childrenCountOk_map_replace cnt cn k0 c2 htok ?_ (hok hcok)
          rw [hcnt, hty]
          exact hcrel

theorem applyOp_preserves (t t2 : TreeNode) (op : BuildOp)
    (h : applyOp t op = some t2) :
    t2.namedNodesCount = t.namedNodesCount
      ∧ (namedNodesCountOk t = true → namedNodesCountOk t2 = true) := by
  cases op with
  | childAt p k =>
    have hloc : localPreserves
        (fun n => ((n.createChildNode k).toOption.map (fun r => r.1))) := by
      intro n n2 hn
      simp only [] at hn
      cases hE : n.createChildNode k with
      | error e =>
        rw [hE] at hn
        exact absurd hn (by simp [Except.toOption])
      | ok r =>
        rw [hE] at hn
        simp [Except.toOption] at hn
        subst hn
        exact createChildNode_ok_preserves n r.1 r.2 k (by rw [hE])
    have := applyAtPath_preserves _ hloc p t t2 h
    exact ⟨this.2.2.1, this.2.2.2⟩
  | namedListAt p k =>
    have hloc : localPreserves
        (fun n => ((n.createNamedListNode k).toOption.map (fun r => r.1))) := by
      intro n n2 hn
      simp only [] at hn
      cases hE : n.createNamedListNode k with
      | error e =>
        rw [hE] at hn
        exact absurd hn (by simp [Except.toOption])
      | ok r =>
        rw [hE] at hn
        simp [Except.toOption] at hn
        subst hn
        exact createNamedListNode_ok_preserves n r.1 r.2 k (by rw [hE])
    have := applyAtPath_preserves _ hloc p t t2 h
    exact ⟨this.2.2.1, this.2.2.2⟩
  | settingAt p k =>
    have hloc : localPreserves (fun n => (n.registerChildSetting k).toOption) := by
      intro n n2 hn
      simp only [] at hn
      cases hE : n.registerChildSetting k with
      | error e =>
        rw [hE] at hn
        exact absurd hn (by simp [Except.toOption])
      | ok r =>
        rw [hE] at hn
        simp only [Except.toOption, Option.some.injEq] at hn
        subst hn
        exact registerChildSetting_ok_preserves n r k (by rw [hE])
    have := applyAtPath_preserves _ hloc p t t2 h
    exact ⟨this.2.2.1, this.2.2.2⟩

theorem buildFrom_invariant (ops : List BuildOp) :
    ∀ t t2, buildFrom t ops = some t2 →
      t2.namedNodesCount = t.namedNodesCount
        ∧ (namedNodesCountOk t = true → namedNodesCountOk t2 = true) := by
  induction ops with
  | nil =>
    intro t t2 h
    unfold buildFrom at h
    simp only [Option.some.injEq] at h
    subst h
    exact ⟨rfl, fun x => x⟩
  | cons op rest ih =>
    intro t t2 h
    unfold buildFrom at h
    cases ha : applyOp t op with
    | none =>
      rw [ha] at h
      exact absurd h (by simp)
    | some tm =>
      rw [ha] at h
      simp only [] at h
      obtain ⟨h1, h2⟩ := applyOp_preserves t tm op ha
      obtain ⟨h3, h4⟩ := ih tm t2 h
      exact ⟨h3.trans h1, fun hok => h4 (h2 hok)⟩

/-- Claim C8: in every tree reachable by `createRootNode`,
`createChildNode`, `createNamedListNode` (and `registerChildSetting`)
applied at arbitrary nodes, the root carries named-nodes count 0 and
every node carries its parent's count plus one if it is a named-list
node, its parent's count otherwise (`namedNodesCountOk`) — so the count
equals the number of named-list nodes on the path from the root to the
node inclusive. -/
theorem buildTree_namedNodesCount_invariant (ops : List BuildOp) (t : TreeNode)
    (h : buildTree ops = some t) :
    t.namedNodesCount = 0 ∧ namedNodesCountOk t = true := by
  obtain ⟨h1, h2⟩ := buildFrom_invariant ops createRootNode t h
  constructor
  · rw [h1]
    rfl
  · refine h2 ?_
    unfold createRootNode
    rw [namedNodesCountOk_mk]
    simp [childrenCountOk]

/-- Demonstration build sequence: a standard node `network` at the root,
a named list `servers` below it, and a setting `timeout` registered in
the named list. -/
def demoOps : List BuildOp :=
  [BuildOp.childAt [] "network",
   BuildOp.namedListAt ["network"] "servers",
   BuildOp.settingAt ["network", "servers"] "timeout"]

theorem buildTree_namedNodesCount_invariant_witness :
    ∃ t, buildTree demoOps = some t
      ∧ t.namedNodesCount = 0 ∧ namedNodesCountOk t = true := by
  have hs : (buildTree demoOps).isSome = true := by decide
  obtain ⟨t, ht⟩ := Option.isSome_iff_exists.mp hs
  obtain ⟨h1, h2⟩ := buildTree_namedNodesCount_invariant demoOps t ht
  exact ⟨t, ht, h1, h2⟩
